import Mathlib

/-!
Shallow embedding of the adex-validator-stack-js validator worker:
balance maps, the follower rules (`isValidTransition`, `isHealthy` from
`src/services/validatorWorker/lib/followerRules.js`), the follower tick and
`onNewState` state machine (`src/services/validatorWorker/follower.js` and the
variant in `src/unnamed/part_000`), the `createChannel` request schema
(`src/routes/schemas.js`) and `getLatestMsg` over the validator-message store.

JS objects holding bn.js big numbers are modelled as association lists
`List (String × Int)` in object insertion order (JS object keys are unique and
`Object.entries`/`Object.keys`/`Object.values` iterate in insertion order);
bn.js numbers are signed arbitrary-precision integers, modelled as `Int`, with
bn.js `div` (truncation toward zero) modelled as `Int.tdiv`.
-/

namespace Adex

/-- A JS balance object: publisher id → bn.js big number, in insertion order. -/
abbrev BalanceMap := List (String × Int)

/-- JS member access `m[k]` on a balance object: the value at key `k`, if present.
(A bn.js value is an object, hence truthy even when it is zero, so only a
missing key yields `undefined`.) -/
def lookupBal (m : BalanceMap) (k : String) : Option Int :=
  m.lookup k

/-- `m[k] || new BN(0)` from `sumMins` in followerRules.js: the value at `k`,
defaulting to `0` when the key is absent. -/
def lookupBalD (m : BalanceMap) (k : String) : Int :=
  (m.lookup k).getD 0

/-- `sumBNs(Object.values(all))`, i.e. `sumMap` from followerRules.js:
`Object.values(all).reduce((a, b) => a.add(b), new BN(0))`. -/
def sumMap (m : BalanceMap) : Int :=
  (m.map Prod.snd).sum

/-- `sumMins(our, approved)` from followerRules.js:
`sumBNs(Object.keys(our).map(k => BN.min(our[k], approved[k] || new BN(0))))`. -/
def sumMins (our approved : BalanceMap) : Int :=
  (our.map (fun p => min p.2 (lookupBalD approved p.1))).sum

/-- One entry of `channel.spec.validators`: `{id, url, fee}` (fee is a decimal
string on the wire). -/
structure ValidatorSpecEntry where
  id : String
  url : String
  fee : String
deriving DecidableEq

/-- The parts of a channel document the validator worker reads:
`channel.depositAmount` (parsed with `new BN(channel.depositAmount, 10)`),
`channel.validators` (ids, index 0 is the leader) and `channel.spec.validators`. -/
structure Channel where
  id : String
  depositAmount : Int
  validators : List String
  specValidators : List ValidatorSpecEntry
deriving DecidableEq

/-- `isValidTransition(channel, prev, next)` from followerRules.js:
`sumNext.gte(sumPrev) && sumNext.lte(depositAmount)` and every `prev` entry has
an existing, no-smaller `next` entry, and no `next` value `isNeg()`. -/
def isValidTransition (channel : Channel) (prev next : BalanceMap) : Bool :=
  decide (sumMap prev ≤ sumMap next) &&
  decide (sumMap next ≤ channel.depositAmount) &&
  prev.all (fun p =>
    match lookupBal next p.1 with
    | none => false
    | some nextBal => decide (p.2 ≤ nextBal)) &&
  next.all (fun p => !decide (p.2 < 0))

/-- `isHealthy(our, approved)` from followerRules.js. `threshold` stands for
`HEALTH_THRESHOLD = new BN(cfg.HEALTH_THRESHOLD_PROMILLES)`; the configuration
module `cfg` is not part of the sources, so the threshold is a parameter
(the spec gives 950 as the example value). bn.js `div` truncates toward zero,
hence `Int.div`. -/
def isHealthy (threshold : Int) (our approved : BalanceMap) : Bool :=
  let sumOur := sumMap our
  let sumApprovedMins := sumMins our approved
  if sumOur ≤ sumApprovedMins then true
  else if ((sumApprovedMins * 1000).tdiv sumOur) < threshold then false
  else true

lemma prevEntry_check_iff (next : BalanceMap) (p : String × Int) :
    (match lookupBal next p.1 with
      | none => false
      | some nextBal => decide (p.2 ≤ nextBal)) = true ↔
      ∃ nb, lookupBal next p.1 = some nb ∧ p.2 ≤ nb := by
  cases h : lookupBal next p.1 with
  | none => simp [h]
  | some nb => simp [h]

lemma validTransition_iff_aux (channel : Channel) (prev next : BalanceMap) :
    isValidTransition channel prev next = true ↔
      (sumMap prev ≤ sumMap next ∧
       sumMap next ≤ channel.depositAmount ∧
       (∀ p ∈ prev, ∃ nb, lookupBal next p.1 = some nb ∧ p.2 ≤ nb) ∧
       (∀ p ∈ next, 0 ≤ p.2)) := by
  simp only [isValidTransition, Bool.and_eq_true, decide_eq_true_eq,
    List.all_eq_true, Bool.not_eq_true', decide_eq_false_iff_not, Int.not_lt,
    prevEntry_check_iff]
  tauto

/-- C1: `isValidTransition(channel, prev, next)` returns true iff
`sum(next) ≥ sum(prev)`, `sum(next) ≤ channel.depositAmount`, every entry
`(k, v)` of `prev` has `next[k]` existing with `next[k] ≥ v`, and no value in
`next` is negative. -/
theorem isValidTransition_iff (channel : Channel) (prev next : BalanceMap) :
    isValidTransition channel prev next = true ↔
      (sumMap prev ≤ sumMap next ∧
       sumMap next ≤ channel.depositAmount ∧
       (∀ p ∈ prev, ∃ nb, lookupBal next p.1 = some nb ∧ p.2 ≤ nb) ∧
       (∀ p ∈ next, 0 ≤ p.2)) :=
  validTransition_iff_aux channel prev next

/-- A successful object lookup locates an entry of the association list. -/
lemma lookup_mem {k : String} {v : Int} {m : BalanceMap} (h : m.lookup k = some v) :
    (k, v) ∈ m := by
  induction m with
  | nil => simp at h
  | cons p rest ih =>
    obtain ⟨a, b⟩ := p
    rw [List.lookup_cons] at h
    by_cases hk : (k == a) = true
    · rw [hk] at h
      simp only [Option.some.injEq] at h
      subst h
      have : k = a := eq_of_beq hk
      subst this
      exact List.mem_cons_self _ _
    · rw [Bool.not_eq_true] at hk
      rw [hk] at h
      exact List.mem_cons_of_mem _ (ih h)

lemma sumMap_nonneg {m : BalanceMap} (h : ∀ p ∈ m, 0 ≤ p.2) : 0 ≤ sumMap m := by
  apply List.sum_nonneg
  intro x hx
  obtain ⟨p, hp, rfl⟩ := List.mem_map.mp hx
  exact h p hp

lemma lookupBalD_nonneg {m : BalanceMap} (h : ∀ p ∈ m, 0 ≤ p.2) (k : String) :
    0 ≤ lookupBalD m k := by
  unfold lookupBalD
  cases hl : m.lookup k with
  | none => simp
  | some v => simpa using h (k, v) (lookup_mem hl)

lemma sumMins_nonneg {our approved : BalanceMap}
    (h1 : ∀ p ∈ our, 0 ≤ p.2) (h2 : ∀ p ∈ approved, 0 ≤ p.2) :
    0 ≤ sumMins our approved := by
  apply List.sum_nonneg
  intro x hx
  obtain ⟨p, hp, rfl⟩ := List.mem_map.mp hx
  exact le_min (h1 p hp) (lookupBalD_nonneg h2 p.1)

/-- C2: for balance maps with non-negative values (the wire format admits only
decimal-digit strings), `isHealthy(our, approved)` is true iff
`mins ≥ total` or `mins * 1000 / total ≥ threshold` under integer division,
where `mins = sumMins(our, approved)` and `total = sum(our)`; in particular it
is true whenever `total = 0`. -/
theorem isHealthy_iff (threshold : Int) (our approved : BalanceMap)
    (hour : ∀ p ∈ our, 0 ≤ p.2) (happ : ∀ p ∈ approved, 0 ≤ p.2) :
    (isHealthy threshold our approved = true ↔
      (sumMap our ≤ sumMins our approved ∨
        threshold ≤ sumMins our approved * 1000 / sumMap our)) ∧
    (sumMap our = 0 → isHealthy threshold our approved = true) := by
  have hM : 0 ≤ sumMins our approved := sumMins_nonneg hour happ
  have hS : 0 ≤ sumMap our := sumMap_nonneg hour
  constructor
  · simp only [isHealthy]
    by_cases hge : sumMap our ≤ sumMins our approved
    · simp [hge]
    · rw [if_neg hge, Int.tdiv_eq_ediv (mul_nonneg hM (by norm_num)) hS]
      by_cases hlt : sumMins our approved * 1000 / sumMap our < threshold
      · rw [if_pos hlt]
        refine iff_of_false (by simp) ?_
        push_neg
        exact ⟨not_le.mp hge, hlt⟩
      · rw [if_neg hlt]
        exact iff_of_true rfl (Or.inr (not_lt.mp hlt))
  · intro h0
    simp only [isHealthy]
    rw [if_pos (by rw [h0]; exact hM)]

/-- Witness for C2 at a concrete input. -/
theorem isHealthy_iff_witness :
    ((isHealthy 950 [("a", (1 : Int))] [("a", (1 : Int))] = true ↔
      (sumMap [("a", (1 : Int))] ≤ sumMins [("a", (1 : Int))] [("a", (1 : Int))] ∨
        (950 : Int) ≤ sumMins [("a", (1 : Int))] [("a", (1 : Int))] * 1000 /
          sumMap [("a", (1 : Int))])) ∧
     (sumMap [("a", (1 : Int))] = 0 →
       isHealthy 950 [("a", (1 : Int))] [("a", (1 : Int))] = true)) :=
  isHealthy_iff 950 _ _ (by decide) (by decide)

/-- C6: if every entry of `our` has an existing, no-smaller entry in
`approved`, then `isHealthy(our, approved)` is true, for every threshold. -/
theorem isHealthy_of_pointwise_le (threshold : Int) (our approved : BalanceMap)
    (h : ∀ p ∈ our, ∃ a, lookupBal approved p.1 = some a ∧ p.2 ≤ a) :
    isHealthy threshold our approved = true := by
  have hmins : sumMins our approved = sumMap our := by
    unfold sumMins sumMap
    congr 1
    apply List.map_congr_left
    intro p hp
    obtain ⟨a, ha, hle⟩ := h p hp
    have ha2 : approved.lookup p.1 = some a := ha
    simp [lookupBalD, ha2, min_eq_left hle]
  simp [isHealthy, hmins]

/-- Witness for C6 at a concrete input. -/
theorem isHealthy_of_pointwise_le_witness :
    isHealthy 950 [("a", (1 : Int))] [("a", (2 : Int))] = true :=
  isHealthy_of_pointwise_le 950 _ _
    (by
      intro p hp
      simp only [List.mem_singleton] at hp
      subst hp
      exact ⟨2, by decide, by decide⟩)

/-- C9: `isValidTransition` is transitive in the balance maps. -/
theorem isValidTransition_trans (c : Channel) (a b d : BalanceMap)
    (h1 : isValidTransition c a b = true) (h2 : isValidTransition c b d = true) :
    isValidTransition c a d = true := by
  rw [validTransition_iff_aux] at h1 h2 ⊢
  obtain ⟨s1, _, m1, _⟩ := h1
  obtain ⟨s2, d2, m2, n2⟩ := h2
  refine ⟨le_trans s1 s2, d2, ?_, n2⟩
  intro p hp
  obtain ⟨nb, hnb, hle⟩ := m1 p hp
  obtain ⟨nd, hnd, hle2⟩ := m2 (p.1, nb) (lookup_mem hnb)
  exact ⟨nd, hnd, le_trans hle hle2⟩

/-- Witness for C9 at concrete inputs. -/
theorem isValidTransition_trans_witness :
    isValidTransition ⟨"c", 10, ["L", "F"], []⟩ [("p", (1 : Int))]
      [("p", (3 : Int))] = true :=
  isValidTransition_trans ⟨"c", 10, ["L", "F"], []⟩ [("p", 1)] [("p", 2)]
    [("p", 3)] (by decide) (by decide)

/-- C10: `isHealthy` only reads `approved` through `approved[k] || 0` at the
keys of `our`, so two peer maps agreeing there give the same health verdict. -/
theorem isHealthy_depends_only_on_restriction (threshold : Int)
    (our approved1 approved2 : BalanceMap)
    (h : ∀ p ∈ our, lookupBalD approved1 p.1 = lookupBalD approved2 p.1) :
    isHealthy threshold our approved1 = isHealthy threshold our approved2 := by
  have hmins : sumMins our approved1 = sumMins our approved2 := by
    unfold sumMins
    congr 1
    apply List.map_congr_left
    intro p hp
    rw [h p hp]
  simp only [isHealthy]
  rw [hmins]

/-- Witness for C10 at concrete inputs: the entry `("b", 7)` of the first peer
map is outside the keys of `our` and does not change the verdict. -/
theorem isHealthy_depends_only_on_restriction_witness :
    isHealthy 950 [("a", (1 : Int))] [("a", (5 : Int)), ("b", (7 : Int))] =
      isHealthy 950 [("a", (1 : Int))] [("a", (5 : Int))] :=
  isHealthy_depends_only_on_restriction 950 _ _ _ (by decide)

/-! ### The createChannel schema (src/routes/schemas.js) -/

/-- `Joi.string().regex(/^\d+$/)` (`numericString` in schemas.js): a
non-empty, all-decimal-digit string (Joi strings reject the empty string). -/
def numericStringOk (s : String) : Bool :=
  !s.data.isEmpty && s.data.all Char.isDigit

/-- Shallow model of `Joi.string().uri({scheme: [http, https]})`: the url
carries an http or https scheme. -/
def uriOk (s : String) : Bool :=
  s.data.take 7 == "http://".data || s.data.take 8 == "https://".data

/-- `Joi.string().required()`: a present, non-empty string. -/
def requiredStringOk (s : String) : Bool :=
  !s.data.isEmpty

/-- A createChannel request body, with the fields the schema constrains
(`spec.adUnits`, `spec.targeting` and the other optional `spec` fields carry
no constraints that matter here). -/
structure ChannelCreate where
  id : String
  depositAsset : String
  depositAmount : String
  validUntil : Int
  creator : String
  validators : List ValidatorSpecEntry
  withdrawPeriodStart : Int
deriving DecidableEq

/-- One `spec.validators` item: `{id: string required, url: uri required,
fee: numericString required}`. -/
def validatorEntryOk (v : ValidatorSpecEntry) : Bool :=
  requiredStringOk v.id && uriOk v.url && numericStringOk v.fee

/-- The `createChannel` schema of src/routes/schemas.js: `id`, `depositAsset`,
`creator` are required strings, `depositAmount` a numericString, `validUntil`
and `spec.withdrawPeriodStart` required numbers (carried by the field types),
and `spec.validators` a required array of exactly two valid entries. -/
def createChannelValid (c : ChannelCreate) : Bool :=
  requiredStringOk c.id &&
  requiredStringOk c.depositAsset &&
  numericStringOk c.depositAmount &&
  requiredStringOk c.creator &&
  c.validators.all validatorEntryOk &&
  decide (c.validators.length = 2)

/-- Numeric value of a decimal string (the value `new BN(s, 10)` denotes). -/
def natOfString (s : String) : Nat :=
  s.data.foldl (fun a c => a * 10 + (c.toNat - 48)) 0

/-- The sum of the validators' declared fees. -/
def feeSum (c : ChannelCreate) : Nat :=
  (c.validators.map (fun v => natOfString v.fee)).sum

/-- A create request whose validator fees sum to 10 while the deposit is 1. -/
def overFeeChannel : ChannelCreate :=
  { id := "testChannel"
    depositAsset := "DAI"
    depositAmount := "1"
    validUntil := 4102444800
    creator := "advertiser"
    validators := [⟨"awesomeLeader", "http://localhost:8005", "5"⟩,
                   ⟨"awesomeFollower", "http://localhost:8006", "5"⟩]
    withdrawPeriodStart := 0 }

/-- C7 counterexample: the createChannel schema accepts `overFeeChannel`, whose
fee sum (5 + 5 = 10) exceeds its depositAmount (1); no fee-sum check exists in
the schema. -/
theorem createChannel_accepts_fees_over_deposit :
    createChannelValid overFeeChannel = true ∧
      ¬ feeSum overFeeChannel ≤ natOfString overFeeChannel.depositAmount := by
  constructor
  · decide
  · decide

/-- C7 amended: the createChannel schema checks every field's shape separately
and enforces no relation between the fee sum and the deposit: replacing the
depositAmount of an accepted request by any numeric string keeps it accepted. -/
theorem createChannel_deposit_unconstrained (c : ChannelCreate) (d : String)
    (hc : createChannelValid c = true) (hd : numericStringOk d = true) :
    createChannelValid { c with depositAmount := d } = true := by
  simp only [createChannelValid, Bool.and_eq_true, decide_eq_true_eq] at hc ⊢
  exact ⟨⟨⟨⟨hc.1.1.1.1, hd⟩, hc.1.1.2⟩, hc.1.2⟩, hc.2⟩

/-- Witness for the amended C7 at a concrete input. -/
theorem createChannel_deposit_unconstrained_witness :
    createChannelValid { overFeeChannel with depositAmount := "1000" } = true :=
  createChannel_deposit_unconstrained overFeeChannel "1000" (by decide) (by decide)

/-! ### getLatestMsg over the validator-message store (follower.js) -/

/-- The stored `msg` document of a validator message; `type` is the wire
discriminator (`'msg.type'` in the Mongo filter). -/
structure MsgDoc where
  type : String
  stateRoot : String
  payload : String
deriving DecidableEq

/-- The envelope `{channelId, from, msg}` a validator message is stored with
(`from` is spelled `fromId` because `from` is reserved in Lean). -/
structure Envelope where
  channelId : String
  fromId : String
  msg : MsgDoc
deriving DecidableEq

/-- The Mongo filter `{channelId, from, 'msg.type': type}` of getLatestMsg. -/
def msgMatches (channelId fromId ty : String) (e : Envelope) : Bool :=
  e.channelId == channelId && e.fromId == fromId && e.msg.type == ty

/-- `getLatestMsg(channelId, from, type)` from follower.js. The collection is
modelled as a list in insertion order; `sort({_id: -1})` yields newest-first
order because Mongo ObjectIds increase with insertion, so it reverses the
matching sublist, and `.limit(1).toArray()` then `o ? o.msg : null` takes the
head envelope's `msg`. -/
def getLatestMsg (db : List Envelope) (channelId fromId ty : String) :
    Option MsgDoc :=
  ((db.filter (msgMatches channelId fromId ty)).reverse.head?).map (·.msg)

lemma getLatestMsg_cons (e : Envelope) (db : List Envelope) (c f t : String) :
    getLatestMsg (e :: db) c f t =
      match getLatestMsg db c f t with
      | some m => some m
      | none => if msgMatches c f t e then some e.msg else none := by
  unfold getLatestMsg
  by_cases he : msgMatches c f t e
  · rw [List.filter_cons_of_pos he, List.reverse_cons]
    cases hr : (db.filter (msgMatches c f t)).reverse with
    | nil => simp [hr, he]
    | cons x xs => simp [hr, he]
  · rw [List.filter_cons_of_neg he]
    cases hr : (db.filter (msgMatches c f t)).reverse with
    | nil => simp [hr, he]
    | cons x xs => simp [hr]

lemma getLatestMsg_eq_none_iff (db : List Envelope) (c f t : String) :
    getLatestMsg db c f t = none ↔ ∀ e ∈ db, msgMatches c f t e = false := by
  unfold getLatestMsg
  simp [List.filter_eq_nil_iff]

/-- C8: among all stored validator messages matching the channelId, sender and
type, `getLatestMsg` returns the `msg` of the one inserted last, and `none`
when no stored message matches. -/
theorem getLatestMsg_latest (db : List Envelope) (c f t : String) :
    (getLatestMsg db c f t = none ↔ ∀ e ∈ db, msgMatches c f t e = false) ∧
    (∀ i, ∀ hi : i < db.length, msgMatches c f t (db.get ⟨i, hi⟩) = true →
      (∀ j, ∀ hj : j < db.length, i < j →
        msgMatches c f t (db.get ⟨j, hj⟩) = false) →
      getLatestMsg db c f t = some (db.get ⟨i, hi⟩).msg) := by
  refine ⟨getLatestMsg_eq_none_iff db c f t, ?_⟩
  induction db with
  | nil => intro i hi; exact absurd hi (Nat.not_lt_zero i)
  | cons e rest ih =>
    intro i hi hmatch hlater
    rw [getLatestMsg_cons]
    cases i with
    | zero =>
      have hnone : getLatestMsg rest c f t = none := by
        rw [getLatestMsg_eq_none_iff]
        intro x hx
        obtain ⟨⟨k, hk⟩, rfl⟩ := List.mem_iff_get.mp hx
        exact hlater (k + 1) (by simpa using Nat.succ_lt_succ hk) (Nat.succ_pos k)
      rw [hnone]
      simpa using hmatch
    | succ k =>
      have hk : k < rest.length := Nat.lt_of_succ_lt_succ hi
      have hrest : getLatestMsg rest c f t = some (rest.get ⟨k, hk⟩).msg := by
        refine ih k hk hmatch ?_
        intro j hj hkj
        exact hlater (j + 1) (by simpa using Nat.succ_lt_succ hj)
          (Nat.succ_lt_succ hkj)
      rw [hrest]
      rfl

/-- Witness for C8 at a concrete store: two matching messages, the later
insertion wins. -/
theorem getLatestMsg_latest_witness :
    getLatestMsg
      [⟨"ch", "L", ⟨"NewState", "r1", "p1"⟩⟩, ⟨"ch", "L", ⟨"NewState", "r2", "p2"⟩⟩]
      "ch" "L" "NewState" = some ⟨"NewState", "r2", "p2"⟩ :=
  (getLatestMsg_latest
      [⟨"ch", "L", ⟨"NewState", "r1", "p1"⟩⟩, ⟨"ch", "L", ⟨"NewState", "r2", "p2"⟩⟩]
      "ch" "L" "NewState").2 1 (by decide) (by decide)
    (fun j hj hij => absurd hij (by simp only [List.length_cons, List.length_nil] at hj; omega))

/-! ### The follower tick and onNewState
(src/services/validatorWorker/follower.js and src/unnamed/part_000) -/

/-- A `NewState` message as the follower reads it: `stateRoot`, `signature`,
`balances` and the claimed `balancesAfterFees`. -/
structure NewStateMsg where
  stateRoot : String
  signature : String
  balances : BalanceMap
  balancesAfterFees : BalanceMap
deriving DecidableEq

/-- The follower's own latest `ApproveState` after `augmentWithBalances`
joined in the balances of the NewState with the matching stateRoot. -/
structure ApproveMsgAug where
  stateRoot : String
  balances : BalanceMap
deriving DecidableEq

/-- A message the follower persists and propagates during a tick. -/
inductive OutMsg
  | approveState (stateRoot signature : String) (isHealthy : Bool)
  | rejectState (reason : String)
  | heartbeat
deriving DecidableEq

/-- Result of `onNewState`: the messages persisted-and-propagated, and the
`nothingNew` flag the heartbeat path reads. -/
structure NewStateRes where
  msgs : List OutMsg
  nothingNew : Bool
deriving DecidableEq

/-- `toBNMap(approveMsg ? approveMsg.balances : {})` from onNewState. -/
def prevBalancesOf (approveMsg : Option ApproveMsgAug) : BalanceMap :=
  match approveMsg with
  | some a => a.balances
  | none => []

/-- `channel.spec.validators[0].id`, the leader identity whose signature is
verified (the schema guarantees exactly two validator entries). -/
def leaderId (channel : Channel) : String :=
  ((channel.specValidators.head?).map (fun v => v.id)).getD ""

/-- lodash `isEqual` on two JS objects of decimal strings: the same keys bound
to the same values, irrespective of key order. -/
def objEq (a b : BalanceMap) : Bool :=
  a.all (fun p => b.lookup p.1 == some p.2) &&
  b.all (fun p => a.lookup p.1 == some p.2)

/-- `isValidValidatorFees(channel, balances, balancesAfterFees)` from
follower.js / part_000: recompute `getBalancesAfterFeesTree(balances, channel)`
and compare structurally with the claimed map. The fee tree itself lives in
`lib/fees.js`, which is not among the sources, so it is an abstract function
argument `afterFees`. -/
def isValidValidatorFees (afterFees : BalanceMap → Channel → BalanceMap)
    (channel : Channel) (balances balancesAfterFees : BalanceMap) : Bool :=
  objEq (afterFees balances channel) balancesAfterFees

/-- `onNewState` from src/unnamed/part_000: validate the pending NewState
check by check and stop at the first failure; on success, sign the stateRoot
and persist-and-propagate one ApproveState. `validRootHash` abstracts
`isValidRootHash` and `verify`/`sign` the adapter (lib and adapters are not
among the sources). Modelled from the spec: `onError` (required from `./lib`,
not among the sources) persists and propagates `RejectState { reason, ... }`
(spec §4.7/§7), and its tick result is modelled as nothing-new. -/
def onNewState (afterFees : BalanceMap → Channel → BalanceMap)
    (validRootHash : String → Channel → BalanceMap → Bool)
    (verify : String → String → String → Bool) (sign : String → String)
    (threshold : Int) (channel : Channel) (balances : BalanceMap)
    (newMsg : NewStateMsg) (approveMsg : Option ApproveMsgAug) : NewStateRes :=
  let prevBalances := prevBalancesOf approveMsg
  let newBalances := newMsg.balances
  let balancesAfterFees := newMsg.balancesAfterFees
  if !isValidTransition channel prevBalances newBalances then
    ⟨[.rejectState "InvalidTransition"], true⟩
  else if !isValidValidatorFees afterFees channel newBalances balancesAfterFees then
    ⟨[.rejectState "InvalidValidatorFees"], true⟩
  else if !validRootHash newMsg.stateRoot channel balancesAfterFees then
    ⟨[.rejectState "InvalidRootHash"], true⟩
  else if !verify (leaderId channel) newMsg.stateRoot newMsg.signature then
    ⟨[.rejectState "InvalidSignature"], true⟩
  else
    ⟨[.approveState newMsg.stateRoot (sign newMsg.stateRoot)
        (isHealthy threshold balances newBalances)], false⟩

/-- `onNewState` from src/services/validatorWorker/follower.js: the same four
checks in the same order, but an invalid NewState is only logged with
`console.error` and the function returns `{ nothingNew: true }` without
persisting or propagating any message. -/
def onNewStateSvc (afterFees : BalanceMap → Channel → BalanceMap)
    (validRootHash : String → Channel → BalanceMap → Bool)
    (verify : String → String → String → Bool) (sign : String → String)
    (threshold : Int) (channel : Channel) (balances : BalanceMap)
    (newMsg : NewStateMsg) (approveMsg : Option ApproveMsgAug) : NewStateRes :=
  let prevBalances := prevBalancesOf approveMsg
  let newBalances := newMsg.balances
  let balancesAfterFees := newMsg.balancesAfterFees
  if !isValidTransition channel prevBalances newBalances then
    ⟨[], true⟩
  else if !isValidValidatorFees afterFees channel newBalances balancesAfterFees then
    ⟨[], true⟩
  else if !validRootHash newMsg.stateRoot channel balancesAfterFees then
    ⟨[], true⟩
  else if !verify (leaderId channel) newMsg.stateRoot newMsg.signature then
    ⟨[], true⟩
  else
    ⟨[.approveState newMsg.stateRoot (sign newMsg.stateRoot)
        (isHealthy threshold balances newBalances)], false⟩

/-- `heartbeatIfNothingNew(adapter, channel, res)`. Modelled from the spec:
heartbeat.js is not among the sources; spec §4.8 emits one Heartbeat iff the
tick produced nothing new and the time since our last Heartbeat exceeds
`HEARTBEAT_TIME` (abstracted as `timeExceeded`). -/
def heartbeatIfNothingNew (nothingNew timeExceeded : Bool) : List OutMsg :=
  if nothingNew && timeExceeded then [.heartbeat] else []

/-- What the follower reads out of a producer tick. Modelled from the spec:
producer.js is not among the sources; spec §4.5 says the producer returns the
channel, the updated balances `ours`, and `newStateTree` (null when nothing
changed; `newStateTree` here records its truthiness, read by
`{ nothingNew: !res.newStateTree }`). -/
structure ProducerRes where
  balances : BalanceMap
  newStateTree : Bool
deriving DecidableEq

/-- Result of one follower tick: every message persisted-and-propagated, and
whether the `onNewState` branch ran. -/
structure TickRes where
  msgs : List OutMsg
  ranOnNewState : Bool
deriving DecidableEq

/-- `tick(adapter, channel)` from follower.js / part_000 (identical control
flow in both): with `newMsg` the leader's latest NewState and `approveMsg` our
latest augmented ApproveState, when `!newMsg || latestIsApproved` run the
plain producer tick (`prodRes`, from `producer.tick(channel)`) and the
heartbeat path; otherwise run the forced producer tick (`prodResForced`, from
`producer.tick(channel, true)`) and `onNewState` (the part_000 variant here),
then the heartbeat path on its result. -/
def tick (afterFees : BalanceMap → Channel → BalanceMap)
    (validRootHash : String → Channel → BalanceMap → Bool)
    (verify : String → String → String → Bool) (sign : String → String)
    (threshold : Int) (channel : Channel)
    (prodRes prodResForced : ProducerRes) (timeExceeded : Bool)
    (newMsg : Option NewStateMsg) (approveMsg : Option ApproveMsgAug) :
    TickRes :=
  match newMsg, approveMsg with
  | none, _ =>
    ⟨heartbeatIfNothingNew (!prodRes.newStateTree) timeExceeded, false⟩
  | some n, some a =>
    if n.stateRoot == a.stateRoot then
      ⟨heartbeatIfNothingNew (!prodRes.newStateTree) timeExceeded, false⟩
    else
      let res := onNewState afterFees validRootHash verify sign threshold
        channel prodResForced.balances n (some a)
      ⟨res.msgs ++ heartbeatIfNothingNew res.nothingNew timeExceeded, true⟩
  | some n, none =>
    let res := onNewState afterFees validRootHash verify sign threshold
      channel prodResForced.balances n none
    ⟨res.msgs ++ heartbeatIfNothingNew res.nothingNew timeExceeded, true⟩

/-- Whether a persisted message list contains an ApproveState. -/
def hasApprove (msgs : List OutMsg) : Bool :=
  msgs.any (fun m =>
    match m with
    | .approveState _ _ _ => true
    | _ => false)

lemma hasApprove_heartbeat (nothingNew timeExceeded : Bool) :
    hasApprove (heartbeatIfNothingNew nothingNew timeExceeded) = false := by
  cases nothingNew <;> cases timeExceeded <;> rfl

section Follower

variable (afterFees : BalanceMap → Channel → BalanceMap)
variable (validRootHash : String → Channel → BalanceMap → Bool)
variable (verify : String → String → String → Bool)
variable (sign : String → String)
variable (threshold : Int) (channel : Channel) (balances : BalanceMap)
variable (newMsg : NewStateMsg) (approveMsg : Option ApproveMsgAug)

lemma onNewState_cases :
    (isValidTransition channel (prevBalancesOf approveMsg) newMsg.balances = false →
      onNewState afterFees validRootHash verify sign threshold channel balances
        newMsg approveMsg = ⟨[.rejectState "InvalidTransition"], true⟩) ∧
    (isValidTransition channel (prevBalancesOf approveMsg) newMsg.balances = true →
      isValidValidatorFees afterFees channel newMsg.balances
        newMsg.balancesAfterFees = false →
      onNewState afterFees validRootHash verify sign threshold channel balances
        newMsg approveMsg = ⟨[.rejectState "InvalidValidatorFees"], true⟩) ∧
    (isValidTransition channel (prevBalancesOf approveMsg) newMsg.balances = true →
      isValidValidatorFees afterFees channel newMsg.balances
        newMsg.balancesAfterFees = true →
      validRootHash newMsg.stateRoot channel newMsg.balancesAfterFees = false →
      onNewState afterFees validRootHash verify sign threshold channel balances
        newMsg approveMsg = ⟨[.rejectState "InvalidRootHash"], true⟩) ∧
    (isValidTransition channel (prevBalancesOf approveMsg) newMsg.balances = true →
      isValidValidatorFees afterFees channel newMsg.balances
        newMsg.balancesAfterFees = true →
      validRootHash newMsg.stateRoot channel newMsg.balancesAfterFees = true →
      verify (leaderId channel) newMsg.stateRoot newMsg.signature = false →
      onNewState afterFees validRootHash verify sign threshold channel balances
        newMsg approveMsg = ⟨[.rejectState "InvalidSignature"], true⟩) ∧
    (isValidTransition channel (prevBalancesOf approveMsg) newMsg.balances = true →
      isValidValidatorFees afterFees channel newMsg.balances
        newMsg.balancesAfterFees = true →
      validRootHash newMsg.stateRoot channel newMsg.balancesAfterFees = true →
      verify (leaderId channel) newMsg.stateRoot newMsg.signature = true →
      onNewState afterFees validRootHash verify sign threshold channel balances
        newMsg approveMsg =
        ⟨[.approveState newMsg.stateRoot (sign newMsg.stateRoot)
            (isHealthy threshold balances newMsg.balances)], false⟩) := by
  refine ⟨?_, ?_, ?_, ?_, ?_⟩
  · intro h1; simp [onNewState, h1]
  · intro h1 h2; simp [onNewState, h1, h2]
  · intro h1 h2 h3; simp [onNewState, h1, h2, h3]
  · intro h1 h2 h3 h4; simp [onNewState, h1, h2, h3, h4]
  · intro h1 h2 h3 h4; simp [onNewState, h1, h2, h3, h4]

lemma onNewStateSvc_cases :
    (isValidTransition channel (prevBalancesOf approveMsg) newMsg.balances = false →
      onNewStateSvc afterFees validRootHash verify sign threshold channel balances
        newMsg approveMsg = ⟨[], true⟩) ∧
    (isValidTransition channel (prevBalancesOf approveMsg) newMsg.balances = true →
      isValidValidatorFees afterFees channel newMsg.balances
        newMsg.balancesAfterFees = false →
      onNewStateSvc afterFees validRootHash verify sign threshold channel balances
        newMsg approveMsg = ⟨[], true⟩) ∧
    (isValidTransition channel (prevBalancesOf approveMsg) newMsg.balances = true →
      isValidValidatorFees afterFees channel newMsg.balances
        newMsg.balancesAfterFees = true →
      validRootHash newMsg.stateRoot channel newMsg.balancesAfterFees = false →
      onNewStateSvc afterFees validRootHash verify sign threshold channel balances
        newMsg approveMsg = ⟨[], true⟩) ∧
    (isValidTransition channel (prevBalancesOf approveMsg) newMsg.balances = true →
      isValidValidatorFees afterFees channel newMsg.balances
        newMsg.balancesAfterFees = true →
      validRootHash newMsg.stateRoot channel newMsg.balancesAfterFees = true →
      verify (leaderId channel) newMsg.stateRoot newMsg.signature = false →
      onNewStateSvc afterFees validRootHash verify sign threshold channel balances
        newMsg approveMsg = ⟨[], true⟩) ∧
    (isValidTransition channel (prevBalancesOf approveMsg) newMsg.balances = true →
      isValidValidatorFees afterFees channel newMsg.balances
        newMsg.balancesAfterFees = true →
      validRootHash newMsg.stateRoot channel newMsg.balancesAfterFees = true →
      verify (leaderId channel) newMsg.stateRoot newMsg.signature = true →
      onNewStateSvc afterFees validRootHash verify sign threshold channel balances
        newMsg approveMsg =
        ⟨[.approveState newMsg.stateRoot (sign newMsg.stateRoot)
            (isHealthy threshold balances newMsg.balances)], false⟩) := by
  refine ⟨?_, ?_, ?_, ?_, ?_⟩
  · intro h1; simp [onNewStateSvc, h1]
  · intro h1 h2; simp [onNewStateSvc, h1, h2]
  · intro h1 h2 h3; simp [onNewStateSvc, h1, h2, h3]
  · intro h1 h2 h3 h4; simp [onNewStateSvc, h1, h2, h3, h4]
  · intro h1 h2 h3 h4; simp [onNewStateSvc, h1, h2, h3, h4]

/-- C3: the fresh-NewState handler validates, in this order, the balance
transition, the validator-fee recomputation, the state-root recomputation and
the leader signature, stopping at the first failing check with that check's
reason; only when all four pass does it sign the stateRoot and
persist-and-propagate exactly one ApproveState carrying the stateRoot, the
fresh signature, and `isHealthy(ours, next)` with `ours` the follower's
producer balances and `next` the NewState balances. -/
theorem onNewState_order :
    (isValidTransition channel (prevBalancesOf approveMsg) newMsg.balances = false →
      onNewState afterFees validRootHash verify sign threshold channel balances
        newMsg approveMsg = ⟨[.rejectState "InvalidTransition"], true⟩) ∧
    (isValidTransition channel (prevBalancesOf approveMsg) newMsg.balances = true →
      isValidValidatorFees afterFees channel newMsg.balances
        newMsg.balancesAfterFees = false →
      onNewState afterFees validRootHash verify sign threshold channel balances
        newMsg approveMsg = ⟨[.rejectState "InvalidValidatorFees"], true⟩) ∧
    (isValidTransition channel (prevBalancesOf approveMsg) newMsg.balances = true →
      isValidValidatorFees afterFees channel newMsg.balances
        newMsg.balancesAfterFees = true →
      validRootHash newMsg.stateRoot channel newMsg.balancesAfterFees = false →
      onNewState afterFees validRootHash verify sign threshold channel balances
        newMsg approveMsg = ⟨[.rejectState "InvalidRootHash"], true⟩) ∧
    (isValidTransition channel (prevBalancesOf approveMsg) newMsg.balances = true →
      isValidValidatorFees afterFees channel newMsg.balances
        newMsg.balancesAfterFees = true →
      validRootHash newMsg.stateRoot channel newMsg.balancesAfterFees = true →
      verify (leaderId channel) newMsg.stateRoot newMsg.signature = false →
      onNewState afterFees validRootHash verify sign threshold channel balances
        newMsg approveMsg = ⟨[.rejectState "InvalidSignature"], true⟩) ∧
    (isValidTransition channel (prevBalancesOf approveMsg) newMsg.balances = true →
      isValidValidatorFees afterFees channel newMsg.balances
        newMsg.balancesAfterFees = true →
      validRootHash newMsg.stateRoot channel newMsg.balancesAfterFees = true →
      verify (leaderId channel) newMsg.stateRoot newMsg.signature = true →
      onNewState afterFees validRootHash verify sign threshold channel balances
        newMsg approveMsg =
        ⟨[.approveState newMsg.stateRoot (sign newMsg.stateRoot)
            (isHealthy threshold balances newMsg.balances)], false⟩) :=
  onNewState_cases afterFees validRootHash verify sign threshold channel
    balances newMsg approveMsg

/-- C4 amended: whenever one of the four checks fails, no ApproveState is
emitted; the part_000 follower persists-and-propagates exactly one RejectState
carrying a reason (via `onError`), while the services follower persists
nothing at all and only logs before returning nothing-new. -/
theorem onNewState_reject_no_approve
    (hfail : (isValidTransition channel (prevBalancesOf approveMsg) newMsg.balances &&
      isValidValidatorFees afterFees channel newMsg.balances newMsg.balancesAfterFees &&
      validRootHash newMsg.stateRoot channel newMsg.balancesAfterFees &&
      verify (leaderId channel) newMsg.stateRoot newMsg.signature) = false) :
    hasApprove (onNewState afterFees validRootHash verify sign threshold channel
        balances newMsg approveMsg).msgs = false ∧
    (∃ r, (onNewState afterFees validRootHash verify sign threshold channel
        balances newMsg approveMsg).msgs = [OutMsg.rejectState r]) ∧
    onNewStateSvc afterFees validRootHash verify sign threshold channel
        balances newMsg approveMsg = ⟨[], true⟩ := by
  have H := onNewState_cases afterFees validRootHash verify sign threshold
    channel balances newMsg approveMsg
  have S := onNewStateSvc_cases afterFees validRootHash verify sign threshold
    channel balances newMsg approveMsg
  cases h1 : isValidTransition channel (prevBalancesOf approveMsg) newMsg.balances with
  | false =>
    rw [H.1 h1, S.1 h1]
    exact ⟨rfl, ⟨"InvalidTransition", rfl⟩, rfl⟩
  | true =>
    cases h2 : isValidValidatorFees afterFees channel newMsg.balances
        newMsg.balancesAfterFees with
    | false =>
      rw [H.2.1 h1 h2, S.2.1 h1 h2]
      exact ⟨rfl, ⟨"InvalidValidatorFees", rfl⟩, rfl⟩
    | true =>
      cases h3 : validRootHash newMsg.stateRoot channel newMsg.balancesAfterFees with
      | false =>
        rw [H.2.2.1 h1 h2 h3, S.2.2.1 h1 h2 h3]
        exact ⟨rfl, ⟨"InvalidRootHash", rfl⟩, rfl⟩
      | true =>
        cases h4 : verify (leaderId channel) newMsg.stateRoot newMsg.signature with
        | false =>
          rw [H.2.2.2.1 h1 h2 h3 h4, S.2.2.2.1 h1 h2 h3 h4]
          exact ⟨rfl, ⟨"InvalidSignature", rfl⟩, rfl⟩
        | true =>
          rw [h1, h2, h3, h4] at hfail
          simp at hfail

/-- C5: when the leader's latest NewState is missing, or its stateRoot equals
our latest ApproveState's stateRoot, the tick runs only the plain producer
tick followed by the heartbeat path, emits no ApproveState, and does not run
`onNewState`. -/
theorem tick_skips_when_approved (prodRes prodResForced : ProducerRes)
    (timeExceeded : Bool) (newMsgO : Option NewStateMsg)
    (h : newMsgO = none ∨
      ∃ n a, newMsgO = some n ∧ approveMsg = some a ∧ n.stateRoot = a.stateRoot) :
    tick afterFees validRootHash verify sign threshold channel prodRes
        prodResForced timeExceeded newMsgO approveMsg =
      ⟨heartbeatIfNothingNew (!prodRes.newStateTree) timeExceeded, false⟩ ∧
    hasApprove (tick afterFees validRootHash verify sign threshold channel
        prodRes prodResForced timeExceeded newMsgO approveMsg).msgs = false := by
  obtain rfl | ⟨n, a, rfl, rfl, hroot⟩ := h
  · exact ⟨rfl, hasApprove_heartbeat _ _⟩
  · have hb : (n.stateRoot == a.stateRoot) = true := beq_iff_eq.mpr hroot
    constructor
    · simp [tick, hb]
    · simp [tick, hb, hasApprove_heartbeat]

end Follower

/-- Witness for C3 at concrete inputs exercising the all-checks-pass branch. -/
theorem onNewState_order_witness :
    onNewState (fun b _ => b) (fun _ _ _ => true) (fun _ _ _ => true)
      (fun _ => "sig") 950
      ⟨"c", 10, ["L", "F"], [⟨"L", "http://l", "0"⟩, ⟨"F", "http://f", "0"⟩]⟩
      [("p", 1)] ⟨"r", "s", [("p", 1)], [("p", 1)]⟩ none =
      ⟨[.approveState "r" "sig" true], false⟩ :=
  (onNewState_order (fun b _ => b) (fun _ _ _ => true) (fun _ _ _ => true)
    (fun _ => "sig") 950
    ⟨"c", 10, ["L", "F"], [⟨"L", "http://l", "0"⟩, ⟨"F", "http://f", "0"⟩]⟩
    [("p", 1)] ⟨"r", "s", [("p", 1)], [("p", 1)]⟩ none).2.2.2.2
    (by decide) (by decide) rfl rfl

/-- C4 counterexample: with the services follower
(src/services/validatorWorker/follower.js), an invalid transition (the
balance of "p" drops from 7 to 5) fails the first check, yet nothing is
persisted or propagated — in particular no RejectState message. -/
theorem onNewStateSvc_persists_no_rejectstate :
    isValidTransition
        ⟨"c", 10, ["L", "F"], [⟨"L", "http://l", "0"⟩, ⟨"F", "http://f", "0"⟩]⟩
        [("p", (7 : Int))] [("p", (5 : Int))] = false ∧
      onNewStateSvc (fun b _ => b) (fun _ _ _ => true) (fun _ _ _ => true)
        (fun _ => "sig") 950
        ⟨"c", 10, ["L", "F"], [⟨"L", "http://l", "0"⟩, ⟨"F", "http://f", "0"⟩]⟩
        [("p", 5)] ⟨"r", "s", [("p", 5)], [("p", 5)]⟩
        (some ⟨"r0", [("p", 7)]⟩) = ⟨[], true⟩ := by
  constructor
  · decide
  · decide

/-- Witness for the amended C4 at a concrete input failing the signature
check. -/
theorem onNewState_reject_no_approve_witness :
    hasApprove (onNewState (fun b _ => b) (fun _ _ _ => true)
        (fun _ _ _ => false) (fun _ => "sig") 950
        ⟨"c", 10, ["L", "F"], [⟨"L", "http://l", "0"⟩, ⟨"F", "http://f", "0"⟩]⟩
        [("q", 2)] ⟨"r2", "s2", [("q", 2)], [("q", 2)]⟩ none).msgs = false ∧
    (∃ r, (onNewState (fun b _ => b) (fun _ _ _ => true)
        (fun _ _ _ => false) (fun _ => "sig") 950
        ⟨"c", 10, ["L", "F"], [⟨"L", "http://l", "0"⟩, ⟨"F", "http://f", "0"⟩]⟩
        [("q", 2)] ⟨"r2", "s2", [("q", 2)], [("q", 2)]⟩ none).msgs =
      [OutMsg.rejectState r]) ∧
    onNewStateSvc (fun b _ => b) (fun _ _ _ => true)
        (fun _ _ _ => false) (fun _ => "sig") 950
        ⟨"c", 10, ["L", "F"], [⟨"L", "http://l", "0"⟩, ⟨"F", "http://f", "0"⟩]⟩
        [("q", 2)] ⟨"r2", "s2", [("q", 2)], [("q", 2)]⟩ none = ⟨[], true⟩ :=
  onNewState_reject_no_approve (fun b _ => b) (fun _ _ _ => true)
    (fun _ _ _ => false) (fun _ => "sig") 950
    ⟨"c", 10, ["L", "F"], [⟨"L", "http://l", "0"⟩, ⟨"F", "http://f", "0"⟩]⟩
    [("q", 2)] ⟨"r2", "s2", [("q", 2)], [("q", 2)]⟩ none (by decide)

/-- Witness for C5 at a concrete input (no pending NewState, heartbeat due). -/
theorem tick_skips_when_approved_witness :
    tick (fun b _ => b) (fun _ _ _ => true) (fun _ _ _ => true) (fun _ => "sig")
        950 ⟨"c", 10, ["L", "F"], []⟩ ⟨[], false⟩ ⟨[], false⟩ true none none =
      ⟨[OutMsg.heartbeat], false⟩ ∧
    hasApprove (tick (fun b _ => b) (fun _ _ _ => true) (fun _ _ _ => true)
        (fun _ => "sig") 950 ⟨"c", 10, ["L", "F"], []⟩ ⟨[], false⟩ ⟨[], false⟩
        true none none).msgs = false :=
  tick_skips_when_approved (fun b _ => b) (fun _ _ _ => true) (fun _ _ _ => true)
    (fun _ => "sig") 950 ⟨"c", 10, ["L", "F"], []⟩ none ⟨[], false⟩ ⟨[], false⟩
    true none (Or.inl rfl)

end Adex
